import Mathlib

/-!
Verification of the notification dispatch engine of `bot_bgpk.py`:
the schedule scanner (`check_and_notify_upcoming_classes`,
`db_get_upcoming_class`, the `notifications_sent` dedup ledger), the
two Firestore change-feed listeners (`ApplicationsListener`,
`NewsListener`), the fan-out delivery loops, and the startup sequence
in `main`.

Shallow embedding conventions:
- SQLite rows become Lean structures; the `schedule` table is a list of
  rows, `ORDER BY lesson_number` is an insertion sort.
- Python exceptions are modelled with an explicit error type `PyErr`
  threaded as `Except` / `Option PyErr`; a `try/except` clause that
  catches only some exception classes matches only those constructors.
- `datetime.now()` is modelled with seconds fixed to zero: a weekday
  index `wd` (0 = Monday, as `datetime.weekday()`) and `now_min`,
  minutes since midnight.  `(start - now).total_seconds() / 60` is then
  an exact integer difference of minutes.
- The outcome of each `bot.send_message` call on the scanner path is an
  oracle `send : Nat -> Bool` consulted with the number of prior send
  attempts; `true` means the call returned, `false` means it raised.
- `sent_date LIKE "YYYY-MM-DD%"` on rows written as
  `"YYYY-MM-DD HH:MM:SS"` is equality of the date component, so ledger
  rows carry their date component `sent_day`.
-/

/-- Python exception classes that the scanner's code can raise while
parsing a stored lesson time: `int(...)` and `datetime.replace` raise
`ValueError`, a missing dict key raises `KeyError`, and an
out-of-range list index raises `IndexError`. -/
inductive PyErr where
  | valueError
  | keyError
  | indexError
deriving DecidableEq, Repr

/-- A row of the `schedule` table. -/
structure Lesson where
  class_name : String
  day_name : String
  lesson_number : Nat
  subject : String
  teacher : String
  start_time : String
  end_time : String
deriving DecidableEq, Repr

/-- A row of the `users` table as selected by the scanner
(`SELECT * FROM users WHERE tg_id IS NOT NULL`), with
`events_notifications` resolved to a Bool (the row's integer flag
compared to 1, as in `db_get_events_notifications`; `phone` is the
primary key, so the re-query by phone returns this same row). -/
structure User where
  tg_id : Int
  phone : String
  class_name : String
  fio : String
  events_notifications : Bool
deriving DecidableEq, Repr

/-- A row of the `notifications_sent` table; `sent_day` is the date
component of the stored `sent_date` timestamp. -/
structure SentRow where
  user_phone : String
  class_name : String
  day_name : String
  lesson_number : Nat
  sent_day : String
deriving DecidableEq, Repr

/-- A successfully delivered schedule notification, tagged with the
dedup-key components it was recorded under. -/
structure SentMsg where
  tg_id : Int
  phone : String
  class_name : String
  day_name : String
  lesson_number : Nat
  date : String
deriving DecidableEq, Repr

/-- The dedup key of the spec: subscriber phone, class, weekday name,
lesson ordinal and calendar date. -/
structure DKey where
  phone : String
  cls : String
  day : String
  num : Nat
  date : String
deriving DecidableEq, Repr

/-- Mutable state touched by one scanner tick: the persisted
`notifications_sent` ledger, the delivered messages, the number of
send attempts so far (index into the send oracle), and the trace of
lookahead windows for which `db_get_upcoming_class` was invoked. -/
structure TickState where
  ledger : List SentRow
  delivered : List SentMsg
  attempts : Nat
  checked : List Int
deriving DecidableEq, Repr

/-- The environment of a scanner tick: the `schedule` table, the user
list returned by the tick's query, the current weekday and wall-clock
minutes, today's date string, and the send-outcome oracle. -/
structure ScanEnv where
  rows : List Lesson
  users : List User
  wd : Nat
  now_min : Int
  today : String
  send : Nat → Bool

/-- Python `str.split(":")` on the character list of the string:
separator-keeping split, empty fields preserved, never returns an
empty list. -/
def splitColon : List Char → List (List Char)
  | [] => [[]]
  | c :: cs =>
    let r := splitColon cs
    if c = ':' then [] :: r
    else
      match r with
      | [] => [[c]]
      | g :: gs => (c :: g) :: gs

/-- Strip the surrounding whitespace that Python `int(str)` accepts. -/
def stripSpaces (cs : List Char) : List Char :=
  ((cs.dropWhile (fun c => c = ' ' ∨ c = '\t' ∨ c = '\n')).reverse.dropWhile
      (fun c => c = ' ' ∨ c = '\t' ∨ c = '\n')).reverse

def isDigitChar (c : Char) : Bool :=
  '0' ≤ c && c ≤ '9'

def digitsVal (cs : List Char) : Nat :=
  cs.foldl (fun a c => a * 10 + (c.toNat - 48)) 0

/-- Python `int(str)`: strips whitespace, accepts an optional sign and
a nonempty digit string, otherwise raises `ValueError`.  (The digit
grouping underscore of Python 3.6+ is not modelled; stored times do
not use it.) -/
def pyInt (cs : List Char) : Except PyErr Int :=
  let t := stripSpaces cs
  match t with
  | '-' :: ds =>
    if ds ≠ [] ∧ ds.all isDigitChar then Except.ok (-(digitsVal ds : Int))
    else Except.error PyErr.valueError
  | '+' :: ds =>
    if ds ≠ [] ∧ ds.all isDigitChar then Except.ok (digitsVal ds : Int)
    else Except.error PyErr.valueError
  | ds =>
    if ds ≠ [] ∧ ds.all isDigitChar then Except.ok (digitsVal ds : Int)
    else Except.error PyErr.valueError

/-- The lesson-time parse performed by both loops of
`db_get_upcoming_class`:
`start_parts = lesson["start_time"].split(":")` followed by
`now.replace(hour=int(start_parts[0]), minute=int(start_parts[1]), second=0, microsecond=0)`.
Evaluation order as in Python: `int(start_parts[0])` may raise
`ValueError`; `start_parts[1]` may raise `IndexError`;
`int(start_parts[1])` may raise `ValueError`; `replace` raises
`ValueError` when the hour is outside 0..23 or the minute outside
0..59. -/
def parseLessonStart (s : String) : Except PyErr (Int × Int) :=
  match splitColon s.toList with
  | [] => Except.error PyErr.valueError
  | p0 :: rest =>
    match pyInt p0 with
    | Except.error e => Except.error e
    | Except.ok h =>
      match rest with
      | [] => Except.error PyErr.indexError
      | p1 :: _ =>
        match pyInt p1 with
        | Except.error e => Except.error e
        | Except.ok m =>
          if 0 ≤ h ∧ h ≤ 23 ∧ 0 ≤ m ∧ m ≤ 59 then Except.ok (h, m)
          else Except.error PyErr.valueError

/-- The `days_ua` list of `db_get_upcoming_class`, indexed by
`datetime.weekday()` (0 = Monday). -/
def days_ua : List String :=
  ["Понеділок", "Вівторок", "Середа", "Четвер", "П\x27ятниця", "Субота", "Неділя"]

def dayName (wd : Nat) : String :=
  days_ua.getD wd ""

/-- Insertion step of the `ORDER BY lesson_number` sort. -/
def insertByNum (l : Lesson) : List Lesson → List Lesson
  | [] => [l]
  | x :: xs =>
    if l.lesson_number < x.lesson_number then l :: x :: xs
    else x :: insertByNum l xs

def sortByNum (ls : List Lesson) : List Lesson :=
  ls.foldr insertByNum []

/-- `SELECT * FROM schedule WHERE class_name = ? AND day_name = ? ORDER BY lesson_number`. -/
def scheduleFor (rows : List Lesson) (cls day : String) : List Lesson :=
  sortByNum (rows.filter (fun l => l.class_name == cls && l.day_name == day))

/-- The today loop of `db_get_upcoming_class`: for each lesson in
order, parse the start time (the `except (ValueError, KeyError)`
clause skips those two errors and lets `IndexError` propagate),
compute `time_diff = start - now` in minutes, and return the first
lesson with `0 <= time_diff <= minutes_ahead`; lessons with negative
`time_diff` are skipped. -/
def findToday (now_min minutes_ahead : Int) : List Lesson → Except PyErr (Option Lesson)
  | [] => Except.ok none
  | l :: ls =>
    match parseLessonStart l.start_time with
    | Except.error PyErr.indexError => Except.error PyErr.indexError
    | Except.error _ => findToday now_min minutes_ahead ls
    | Except.ok (h, m) =>
      let diff : Int := h * 60 + m - now_min
      if 0 ≤ diff ∧ diff ≤ minutes_ahead then Except.ok (some l)
      else findToday now_min minutes_ahead ls

/-- The tomorrow loop of `db_get_upcoming_class`: the start is placed
on `now + timedelta(days=1)`, so `time_diff = 1440 + start - now`
minutes against the same `now` reference; the first lesson with
`0 <= time_diff <= minutes_ahead` is returned, and the same
`except (ValueError, KeyError)` clause applies. -/
def findTomorrow (now_min minutes_ahead : Int) : List Lesson → Except PyErr (Option Lesson)
  | [] => Except.ok none
  | l :: ls =>
    match parseLessonStart l.start_time with
    | Except.error PyErr.indexError => Except.error PyErr.indexError
    | Except.error _ => findTomorrow now_min minutes_ahead ls
    | Except.ok (h, m) =>
      let diff : Int := 1440 + (h * 60 + m) - now_min
      if 0 ≤ diff ∧ diff ≤ minutes_ahead then Except.ok (some l)
      else findTomorrow now_min minutes_ahead ls

/-- `db_get_upcoming_class` for an existing user of class
`class_name` (the phone-to-user lookup of the source is resolved by
the caller, which iterates user rows): scan today's schedule first;
only when the today loop finishes without a match or an uncaught
error, scan tomorrow's schedule, where tomorrow is
`days_ua[(today_index + 1) % 7]`. -/
def db_get_upcoming_class (env : ScanEnv) (class_name : String) (minutes_ahead : Int) :
    Except PyErr (Option Lesson) :=
  match findToday env.now_min minutes_ahead (scheduleFor env.rows class_name (dayName env.wd)) with
  | Except.error e => Except.error e
  | Except.ok (some l) => Except.ok (some l)
  | Except.ok none =>
    findTomorrow env.now_min minutes_ahead
      (scheduleFor env.rows class_name (dayName ((env.wd + 1) % 7)))

/-- `check_notification_already_sent`: `COUNT(*) > 0` over rows whose
five key columns match and whose `sent_date` begins with today's
date. -/
def check_notification_already_sent (ledger : List SentRow)
    (phone cls day : String) (num : Nat) (today : String) : Bool :=
  ledger.any fun r =>
    r.user_phone == phone && r.class_name == cls && r.day_name == day &&
      r.lesson_number == num && r.sent_day == today

/-- `db_record_notification_sent`: insert a ledger row stamped with the
current date. -/
def db_record_notification_sent (ledger : List SentRow)
    (phone cls day : String) (num : Nat) (today : String) : List SentRow :=
  ledger ++ [⟨phone, cls, day, num, today⟩]

/-- The ascending lookahead windows of the scanner. -/
def check_windows : List Int := [5, 10, 20, 30]

/-- The notification recorded as delivered to a user for a lesson: the
dedup-key components are the user's phone and class, the lesson's
`day_name` and `lesson_number`, and today's date, exactly as passed to
`db_record_notification_sent` by the tick. -/
def mkMsg (u : User) (l : Lesson) (today : String) : SentMsg :=
  ⟨u.tg_id, u.phone, u.class_name, l.day_name, l.lesson_number, today⟩

/-- The window loop of `check_and_notify_upcoming_classes` for one
user: for each window in order, call `db_get_upcoming_class` (whose
uncaught errors propagate out of the loop); on a match, check the
ledger — if present, break; if absent, attempt the send — on success
record the ledger row and break, on a raised send (caught by the inner
`except`) log and continue with the next window, the ledger
unchanged. -/
def processUserWindows (env : ScanEnv) (u : User) :
    List Int → TickState → TickState × Option PyErr
  | [], st => (st, none)
  | w :: ws, st =>
    let st1 : TickState := { st with checked := st.checked ++ [w] }
    match db_get_upcoming_class env u.class_name w with
    | Except.error e => (st1, some e)
    | Except.ok none => processUserWindows env u ws st1
    | Except.ok (some lesson) =>
      if check_notification_already_sent st1.ledger u.phone u.class_name
          lesson.day_name lesson.lesson_number env.today then
        (st1, none)
      else if env.send st1.attempts then
        ({ st1 with
            attempts := st1.attempts + 1,
            delivered := st1.delivered ++ [mkMsg u lesson env.today],
            ledger := db_record_notification_sent st1.ledger u.phone u.class_name
              lesson.day_name lesson.lesson_number env.today }, none)
      else
        processUserWindows env u ws { st1 with attempts := st1.attempts + 1 }

/-- The per-user loop of one tick: users with notifications disabled
are skipped; there is no per-user exception handler, so an error
escaping `processUserWindows` aborts the loop, carrying the state
reached so far. -/
def tickUsers (env : ScanEnv) : List User → TickState → TickState × Option PyErr
  | [], st => (st, none)
  | u :: us, st =>
    if u.events_notifications = false then tickUsers env us st
    else
      match processUserWindows env u check_windows st with
      | (st', some e) => (st', some e)
      | (st', none) => tickUsers env us st'

/-- One iteration of the `while True` body: the outer `except` catches
any error from the user loop, logs it, and the task sleeps the normal
interval either way, so the tick always returns the state reached. -/
def tick (env : ScanEnv) (st : TickState) : TickState :=
  (tickUsers env env.users st).1

/-- Run `n` scanner ticks within the same date. -/
def runTicks (env : ScanEnv) : Nat → TickState → TickState
  | 0, st => st
  | n + 1, st => runTicks env n (tick env st)

/-- State at process start: empty ledger, nothing delivered. -/
def initState : TickState :=
  ⟨[], [], 0, []⟩

/-- Delivered notifications matching a dedup key. -/
def msgMatches (k : DKey) (m : SentMsg) : Bool :=
  m.phone == k.phone && m.class_name == k.cls && m.day_name == k.day &&
    m.lesson_number == k.num && m.date == k.date

def countKey (k : DKey) (st : TickState) : Nat :=
  (st.delivered.filter (msgMatches k)).length

def keyInLedger (k : DKey) (st : TickState) : Bool :=
  check_notification_already_sent st.ledger k.phone k.cls k.day k.num k.date

/-- The dedup invariant: at most one delivery per key, and a delivery
implies the key is recorded in the ledger. -/
def DedupInv (k : DKey) (st : TickState) : Prop :=
  countKey k st ≤ 1 ∧ (1 ≤ countKey k st → keyInLedger k st = true)

/-- The `change.type.name` values of a Firestore change. -/
inductive ChangeType where
  | ADDED
  | MODIFIED
  | REMOVED
deriving DecidableEq, Repr

/-- One element of the `changes` batch passed to `_on_snapshot`:
document id, the `to_dict()` result (`none` models a missing
document body), and the change kind. -/
structure Change (α : Type) where
  id : String
  doc : Option α
  ctype : ChangeType
deriving DecidableEq, Repr

/-- The fields of an application document that the listener reads:
`app_data.get('status', '')`. -/
structure AppDoc where
  status : String
deriving DecidableEq, Repr

/-- The field of a news document that the listener reads:
`news_data.get('published', False)`. -/
structure NewsDoc where
  published : Bool
deriving DecidableEq, Repr

/-- Qualification predicate of `ApplicationsListener._on_snapshot`. -/
def appQualifies (d : AppDoc) : Bool :=
  d.status == "new"

/-- Qualification predicate of `NewsListener._on_snapshot`. -/
def newsQualifies (d : NewsDoc) : Bool :=
  d.published

/-- The `_on_snapshot` callback of either listener, parameterized by
its qualification predicate, as both share the same shape: for each
change with a document body, when the kind is ADDED or MODIFIED, the
document qualifies, and the id is not in the tracked set, add the id
to the set and — only when the captured event loop is running —
schedule one notification task for that document.  Returns the new
tracked set and the ids for which a task was scheduled, in order. -/
def onSnapshot {α : Type} (qualifies : α → Bool) (loopRunning : Bool) :
    List (Change α) → List String → List String × List String
  | [], tr => (tr, [])
  | c :: cs, tr =>
    match c.doc with
    | none => onSnapshot qualifies loopRunning cs tr
    | some d =>
      if (c.ctype = ChangeType.ADDED ∨ c.ctype = ChangeType.MODIFIED) ∧
          qualifies d = true ∧ ¬ c.id ∈ tr then
        let r := onSnapshot qualifies loopRunning cs (tr ++ [c.id])
        (r.1, (if loopRunning then [c.id] else []) ++ r.2)
      else
        onSnapshot qualifies loopRunning cs tr

/-- Adding an element to a Python set modelled as a duplicate-free
list. -/
def setAdd (s : List String) (x : String) : List String :=
  if x ∈ s then s else s ++ [x]

/-- The startup scan of `ApplicationsListener.start_listening`: every
document id of the `applications` collection is added to the tracked
set, regardless of its fields. -/
def seedApps (docs : List (String × Option AppDoc)) : List String :=
  docs.foldl (fun s d => setAdd s d.1) []

/-- The startup scan of `NewsListener.start_listening`: only ids of
documents whose body exists and whose `published` field is truthy are
added. -/
def seedNews (docs : List (String × Option NewsDoc)) : List String :=
  docs.foldl
    (fun s d =>
      match d.2 with
      | some nd => if nd.published then setAdd s d.1 else s
      | none => s)
    []

/-- An event touching the applications tracked set within one process
lifetime: a snapshot batch delivered by the feed, or the
administrator's delete action (`delete_application_callback`), whose
handler calls `tracking_applications.discard(app_id)`. -/
inductive AppEvent where
  | snap (changes : List (Change AppDoc))
  | adminDelete (id : String)
deriving DecidableEq, Repr

/-- One event step on the applications listener state; the snapshot
callback runs with the event loop up (tasks are scheduled), the admin
delete schedules nothing and discards the id. -/
def appStep : AppEvent → List String → List String × List String
  | AppEvent.snap cs, tr => onSnapshot appQualifies true cs tr
  | AppEvent.adminDelete id, tr => (tr.erase id, [])

/-- Run a sequence of events on the applications listener, collecting
all scheduled task ids in order. -/
def appRun : List AppEvent → List String → List String × List String
  | [], tr => (tr, [])
  | e :: es, tr =>
    let r := appStep e tr
    let r' := appRun es r.1
    (r'.1, r.2 ++ r'.2)

/-- Run a sequence of snapshot batches on the news listener (it has no
removal path), collecting all scheduled task ids in order. -/
def newsRun : List (List (Change NewsDoc)) → List String → List String × List String
  | [], tr => (tr, [])
  | cs :: rest, tr =>
    let r := onSnapshot newsQualifies true cs tr
    let r' := newsRun rest r.1
    (r'.1, r.2 ++ r'.2)

/-- The per-user loop of `send_announcement_to_all`: the whole body
for one user sits in a `try` whose `except` increments the error
count, so one outcome is drawn per user; `deliver u = true` means the
`bot.send_*` call returned and the success count is incremented,
`false` means it raised.  Accumulates `(success_count, error_count,
users the payload reached)`. -/
def announce_loop (deliver : Int → Bool) :
    List Int → Nat → Nat → List Int → Nat × Nat × List Int
  | [], s, e, d => (s, e, d)
  | u :: us, s, e, d =>
    if deliver u then announce_loop deliver us (s + 1) e (d ++ [u])
    else announce_loop deliver us s (e + 1) d

/-- `send_announcement_to_all` restricted to its fan-out loop and
aggregate report: counters start at zero. -/
def send_announcement_to_all (deliver : Int → Bool) (users : List Int) :
    Nat × Nat × List Int :=
  announce_loop deliver users 0 0 []

/-- The per-user loop of `NewsListener._send_notification_to_all_users`:
per user, the photo-with-text-fallback block either ends in a
`success_count += 1` or lands in an `except` that does
`failed_count += 1`; `deliver` abstracts that per-user outcome. -/
def news_loop (deliver : Int → Bool) : List Int → Nat → Nat → Nat × Nat
  | [], s, f => (s, f)
  | u :: us, s, f =>
    if deliver u then news_loop deliver us (s + 1) f
    else news_loop deliver us s (f + 1)

def news_send_to_all (deliver : Int → Bool) (users : List Int) : Nat × Nat :=
  news_loop deliver users 0 0

/-- The module-level conditions consulted by `_init_firebase` of both
listeners and by `main`: whether `import firebase_admin` succeeded,
whether the credentials file exists, and whether client construction
(`credentials.Certificate` / `firestore.client`) succeeds for each
listener; plus whether each listener's startup scan and subscription
succeed. -/
structure FirebaseEnv where
  firebase_available : Bool
  creds_exists : Bool
  apps_client_ok : Bool
  news_client_ok : Bool
  apps_stream_ok : Bool
  news_stream_ok : Bool
deriving DecidableEq, Repr

/-- `ApplicationsListener._init_firebase`: returns False when the
library is unavailable, the credentials file is missing, or client
construction raises (caught by its `except`). -/
def init_firebase_apps (e : FirebaseEnv) : Bool :=
  e.firebase_available && e.creds_exists && e.apps_client_ok

/-- `NewsListener._init_firebase`, same structure. -/
def init_firebase_news (e : FirebaseEnv) : Bool :=
  e.firebase_available && e.creds_exists && e.news_client_ok

/-- `ApplicationsListener.start_listening`: on init failure, log and
return with the tracked set still empty and no subscription (the
function body has no loop, so there is no retry); otherwise seed the
tracked set from the full scan and subscribe, any error there being
caught, leaving the listener unsubscribed.  Returns (tracked set,
subscribed?). -/
def start_listening_apps (e : FirebaseEnv) (docs : List (String × Option AppDoc)) :
    List String × Bool :=
  if init_firebase_apps e = false then ([], false)
  else if e.apps_stream_ok then (seedApps docs, true)
  else ([], false)

/-- `NewsListener.start_listening`, same structure with the published
filter in the seed. -/
def start_listening_news (e : FirebaseEnv) (docs : List (String × Option NewsDoc)) :
    List String × Bool :=
  if init_firebase_news e = false then ([], false)
  else if e.news_stream_ok then (seedNews docs, true)
  else ([], false)

/-- What `main` started. -/
structure MainResult where
  appsStartInvoked : Bool
  appsSubscribed : Bool
  newsStartInvoked : Bool
  newsSubscribed : Bool
  scannerStarted : Bool
deriving DecidableEq, Repr

/-- The startup sequence of `main`: when `FIREBASE_AVAILABLE`, invoke
both listeners' `start_listening` in order (each absorbing its own
failures), otherwise skip both; then unconditionally create the
background scanner task. -/
def mainStartup (e : FirebaseEnv) (appsDocs : List (String × Option AppDoc))
    (newsDocs : List (String × Option NewsDoc)) : MainResult :=
  if e.firebase_available then
    ⟨true, (start_listening_apps e appsDocs).2, true,
      (start_listening_news e newsDocs).2, true⟩
  else
    ⟨false, false, false, false, true⟩

/-- A well-formed schedule row: Monday lesson 1 at 08:30. -/
def lessonAlg : Lesson :=
  ⟨"10-А", "Понеділок", 1, "Алгебра", "Іваненко", "08:30", "09:15"⟩

/-- A second well-formed Monday row at 08:30, ordinal 2. -/
def lessonAlg2 : Lesson :=
  ⟨"10-А", "Понеділок", 2, "Геометрія", "Іваненко", "08:30", "09:15"⟩

/-- A row whose `start_time` has no colon but parses as an integer:
`int("12")` succeeds and `start_parts[1]` raises `IndexError`. -/
def lessonBad12 : Lesson :=
  ⟨"10-А", "Понеділок", 1, "Фізика", "Петров", "12", "09:15"⟩

/-- A row whose `start_time` fails in `int(...)` with `ValueError`. -/
def lessonBadAb : Lesson :=
  ⟨"10-А", "Понеділок", 1, "Фізика", "Петров", "ab:cd", "09:15"⟩

/-- A well-formed Monday row for a second class. -/
def lessonGoodB : Lesson :=
  ⟨"10-Б", "Понеділок", 1, "Історія", "Сидоренко", "08:30", "09:15"⟩

/-- A Tuesday row starting at 00:03, for the day-rollover scenario. -/
def lessonTue : Lesson :=
  ⟨"10-А", "Вівторок", 1, "Хімія", "Коваль", "00:03", "00:45"⟩

def userA : User :=
  ⟨100, "380501112233", "10-А", "Петренко", true⟩

def userB : User :=
  ⟨200, "380502223344", "10-Б", "Шевченко", true⟩

/-- Tick at Monday 08:12 over two subscribers; the first subscriber's
schedule contains the colon-less time. -/
def envC2 : ScanEnv :=
  ⟨[lessonBad12, lessonGoodB], [userA, userB], 0, 492, "2026-01-05", fun _ => true⟩

/-- The same tables but with only the second subscriber. -/
def envC2b : ScanEnv :=
  ⟨[lessonBad12, lessonGoodB], [userB], 0, 492, "2026-01-05", fun _ => true⟩

/-- Monday 08:00; the class schedule holds the colon-less row followed
by a well-formed row 30 minutes ahead. -/
def envC3 : ScanEnv :=
  ⟨[lessonBad12, lessonAlg2], [userA], 0, 480, "2026-01-05", fun _ => true⟩

/-- Monday 08:12 with a single lesson at 08:30: 18 minutes ahead. -/
def envC4 : ScanEnv :=
  ⟨[lessonAlg], [userA], 0, 492, "2026-01-05", fun _ => true⟩

/-- Monday 23:58 with a Tuesday lesson at 00:03. -/
def envC5 : ScanEnv :=
  ⟨[lessonTue], [userA], 0, 1438, "2026-01-05", fun _ => true⟩

/-- Monday 08:12, lesson at 08:30; the first send attempt raises, the
second returns. -/
def envC10 : ScanEnv :=
  ⟨[lessonAlg], [userA], 0, 492, "2026-01-05", fun k => k == 1⟩

/-- A MODIFIED change on application document "a" with status "new". -/
def appChgA : Change AppDoc :=
  ⟨"a", some ⟨"new"⟩, ChangeType.MODIFIED⟩

/-- Event sequence: qualifying change, administrator delete of the
same document, then the same qualifying change again. -/
def c7Events : List AppEvent :=
  [AppEvent.snap [appChgA], AppEvent.adminDelete "a", AppEvent.snap [appChgA]]

theorem dedupInv_record (k : DKey) (st : TickState) (u : User) (lesson : Lesson)
    (today : String) (hinv : DedupInv k st)
    (hchk : check_notification_already_sent st.ledger u.phone u.class_name
      lesson.day_name lesson.lesson_number today = false) :
    DedupInv k { st with
      attempts := st.attempts + 1,
      delivered := st.delivered ++ [mkMsg u lesson today],
      ledger := db_record_notification_sent st.ledger u.phone u.class_name
        lesson.day_name lesson.lesson_number today } := by
  obtain ⟨h1, h2⟩ := hinv
  by_cases hm : msgMatches k (mkMsg u lesson today) = true
  · have hcomp : (((u.phone = k.phone ∧ u.class_name = k.cls) ∧ lesson.day_name = k.day) ∧
        lesson.lesson_number = k.num) ∧ today = k.date := by
      simpa [msgMatches, mkMsg, Bool.and_eq_true, beq_iff_eq] using hm
    obtain ⟨⟨⟨⟨e1, e2⟩, e3⟩, e4⟩, e5⟩ := hcomp
    have hled0 : keyInLedger k st = false := by
      unfold keyInLedger
      rw [← e1, ← e2, ← e3, ← e4, ← e5]
      exact hchk
    have hcnt0 : countKey k st = 0 := by
      by_contra hne
      have hge : 1 ≤ countKey k st := Nat.one_le_iff_ne_zero.mpr hne
      have := h2 hge
      rw [hled0] at this
      exact Bool.false_ne_true this
    have hcnt : countKey k { st with
        attempts := st.attempts + 1,
        delivered := st.delivered ++ [mkMsg u lesson today],
        ledger := db_record_notification_sent st.ledger u.phone u.class_name
          lesson.day_name lesson.lesson_number today } = 1 := by
      simp [countKey, List.filter_append, hm]
      simpa [countKey] using hcnt0
    constructor
    · rw [hcnt]
    · intro _
      unfold keyInLedger check_notification_already_sent db_record_notification_sent
      rw [List.any_append]
      have : SentRow.mk u.phone u.class_name lesson.day_name lesson.lesson_number
          today ∈ [SentRow.mk u.phone u.class_name lesson.day_name lesson.lesson_number today] := by
        simp
      simp only [Bool.or_eq_true, List.any_eq_true]
      right
      refine ⟨_, this, ?_⟩
      simp [e1, e2, e3, e4, e5]
  · have hm' : msgMatches k (mkMsg u lesson today) = false := by
      cases hb : msgMatches k (mkMsg u lesson today)
      · rfl
      · exact absurd hb hm
    have hcnt : countKey k { st with
        attempts := st.attempts + 1,
        delivered := st.delivered ++ [mkMsg u lesson today],
        ledger := db_record_notification_sent st.ledger u.phone u.class_name
          lesson.day_name lesson.lesson_number today } = countKey k st := by
      simp [countKey, List.filter_append, hm']
    constructor
    · rw [hcnt]; exact h1
    · intro hge
      rw [hcnt] at hge
      have := h2 hge
      unfold keyInLedger check_notification_already_sent at this ⊢
      unfold db_record_notification_sent
      rw [List.any_append]
      simp [this]

theorem processUserWindows_dedup (env : ScanEnv) (u : User) (k : DKey) :
    ∀ (ws : List Int) (st : TickState), DedupInv k st →
      DedupInv k (processUserWindows env u ws st).1 := by
  intro ws
  induction ws with
  | nil =>
    intro st h
    simpa [processUserWindows] using h
  | cons w ws ih =>
    intro st h
    have h1 : DedupInv k ({ st with checked := st.checked ++ [w] } : TickState) := h
    cases hdb : db_get_upcoming_class env u.class_name w with
    | error e =>
      simpa [processUserWindows, hdb] using h1
    | ok o =>
      cases o with
      | none =>
        have := ih ({ st with checked := st.checked ++ [w] }) h1
        simpa [processUserWindows, hdb] using this
      | some lesson =>
        by_cases hchk : check_notification_already_sent st.ledger u.phone u.class_name
            lesson.day_name lesson.lesson_number env.today = true
        · simpa [processUserWindows, hdb, hchk] using h1
        · have hchk' : check_notification_already_sent st.ledger u.phone u.class_name
              lesson.day_name lesson.lesson_number env.today = false := by
            cases hb : check_notification_already_sent st.ledger u.phone u.class_name
                lesson.day_name lesson.lesson_number env.today
            · rfl
            · exact absurd hb hchk
          by_cases hsend : env.send st.attempts = true
          · have := dedupInv_record k ({ st with checked := st.checked ++ [w] }) u lesson
              env.today h1 hchk'
            simpa [processUserWindows, hdb, hchk', hsend] using this
          · have hsend' : env.send st.attempts = false := by
              cases hb : env.send st.attempts
              · rfl
              · exact absurd hb hsend
            have h2 : DedupInv k
                ({ st with checked := st.checked ++ [w], attempts := st.attempts + 1 } :
                  TickState) := h
            have := ih ({ st with checked := st.checked ++ [w], attempts := st.attempts + 1 }) h2
            simpa [processUserWindows, hdb, hchk', hsend'] using this

theorem tickUsers_dedup (env : ScanEnv) (k : DKey) :
    ∀ (us : List User) (st : TickState), DedupInv k st →
      DedupInv k (tickUsers env us st).1 := by
  intro us
  induction us with
  | nil =>
    intro st h
    simpa [tickUsers] using h
  | cons u us ih =>
    intro st h
    by_cases hu : u.events_notifications = false
    · simpa [tickUsers, hu] using ih st h
    · have hpd := processUserWindows_dedup env u k check_windows st h
      rcases hres : processUserWindows env u check_windows st with ⟨st', oe⟩
      rw [hres] at hpd
      cases oe with
      | none => simpa [tickUsers, hu, hres] using ih st' hpd
      | some e => simpa [tickUsers, hu, hres] using hpd

theorem tick_dedup (env : ScanEnv) (k : DKey) (st : TickState) (h : DedupInv k st) :
    DedupInv k (tick env st) :=
  tickUsers_dedup env k env.users st h

theorem runTicks_dedup (env : ScanEnv) (k : DKey) :
    ∀ (n : Nat) (st : TickState), DedupInv k st → DedupInv k (runTicks env n st) := by
  intro n
  induction n with
  | zero => intro st h; simpa [runTicks] using h
  | succ n ih =>
    intro st h
    simpa [runTicks] using ih (tick env st) (tick_dedup env k st h)

theorem initState_dedup (k : DKey) : DedupInv k initState := by
  constructor
  · simp [countKey, initState]
  · intro h
    simp [countKey, initState] at h

/-- Claim C1: for every subscriber, class, weekday, lesson ordinal and
calendar date, running the scanner tick any number of times within the
same date delivers at most one schedule notification for that dedup
key: the tick checks the `notifications_sent` ledger before sending,
records a row immediately after a successful send, and a later tick
finding the row does not send again. -/
theorem C1_at_most_one_delivery (env : ScanEnv) (n : Nat) (k : DKey) :
    countKey k (runTicks env n initState) ≤ 1 :=
  (runTicks_dedup env k n initState (initState_dedup k)).1

/-- Claim C2 is false on the code: the per-subscriber loop of
`check_and_notify_upcoming_classes` has no per-subscriber exception
handler (only the send itself is guarded), so an unexpected exception
while processing one subscriber aborts the remaining subscribers of
that tick.  Concretely, at Monday 08:12 subscriber A's schedule row
with `start_time = "12"` raises an uncaught `IndexError`; subscriber B
— whose lesson is 18 minutes ahead and who is notified when processed
alone — receives nothing in that tick. -/
theorem C2_counterexample :
    (tickUsers envC2 envC2.users initState).2 = some PyErr.indexError ∧
    (tick envC2 initState).delivered = [] ∧
    (tick envC2b initState).delivered = [mkMsg userB lessonGoodB "2026-01-05"] :=
  ⟨rfl, rfl, rfl⟩

/-- Claim C2 (amended): an unexpected exception while processing one
subscriber propagates out of the per-subscriber loop and is caught by
the tick-level handler: the tick ends with the state reached so far,
the remaining subscribers of that tick are skipped (the result does
not depend on them), the scanner does not crash, and it retries after
the normal tick interval.  Only exceptions raised by the send call
itself are caught per-subscriber. -/
theorem C2_amended_tick_level_catch (env : ScanEnv) (u : User) (us : List User)
    (st st' : TickState) (e : PyErr)
    (hu : u.events_notifications = true)
    (hp : processUserWindows env u check_windows st = (st', some e))
    (husers : env.users = u :: us) :
    tickUsers env (u :: us) st = (st', some e) ∧ tick env st = st' := by
  have h1 : tickUsers env (u :: us) st = (st', some e) := by
    simp [tickUsers, hu, hp]
  exact ⟨h1, by simp [tick, husers, h1]⟩

theorem C2_amended_witness :
    userA.events_notifications = true ∧
    tickUsers envC2 [userA, userB] initState =
      (⟨[], [], 0, [5]⟩, some PyErr.indexError) :=
  ⟨rfl,
    (C2_amended_tick_level_catch envC2 userA [userB] initState ⟨[], [], 0, [5]⟩
      PyErr.indexError rfl rfl rfl).1⟩

/-- Claim C3 is contradicted by a slip in the code: the parse loop of
`db_get_upcoming_class` intends to skip malformed time fields — its
`except (ValueError, KeyError)` clause logs and continues, as the
`"ab:cd"` conjuncts below show — but a `start_time` with no colon
whose first field parses as an integer, such as `"12"`, raises
`IndexError` at `start_parts[1]`, which the clause does not catch: the
error aborts the lookup, the remaining lessons are never considered,
and the whole tick's user loop stops. -/
theorem C3_malformed_time_aborts_scan :
    parseLessonStart "12" = Except.error PyErr.indexError ∧
    findToday 480 30 [lessonBad12, lessonAlg2] = Except.error PyErr.indexError ∧
    findToday 480 30 [lessonAlg2] = Except.ok (some lessonAlg2) ∧
    parseLessonStart "ab:cd" = Except.error PyErr.valueError ∧
    findToday 480 30 [lessonBadAb, lessonAlg2] = Except.ok (some lessonAlg2) ∧
    db_get_upcoming_class envC3 "10-А" 30 = Except.error PyErr.indexError ∧
    (tickUsers envC3 envC3.users initState).2 = some PyErr.indexError :=
  ⟨rfl, rfl, rfl, rfl, rfl, rfl, rfl⟩

theorem findToday_none_of_all_miss (now_min w : Int) :
    ∀ (L : List Lesson),
      (∀ x ∈ L, ∃ hx mx : Int, parseLessonStart x.start_time = Except.ok (hx, mx) ∧
        ¬(0 ≤ hx * 60 + mx - now_min ∧ hx * 60 + mx - now_min ≤ w)) →
      findToday now_min w L = Except.ok none := by
  intro L
  induction L with
  | nil => intro _; rfl
  | cons x L ih =>
    intro hall
    obtain ⟨hx, mx, hp, hcond⟩ := hall x (by simp)
    have hrest : ∀ y ∈ L, ∃ hy my : Int,
        parseLessonStart y.start_time = Except.ok (hy, my) ∧
        ¬(0 ≤ hy * 60 + my - now_min ∧ hy * 60 + my - now_min ≤ w) :=
      fun y hy => hall y (by simp [hy])
    simp [findToday, hp, ih hrest]
    omega

theorem findToday_append_of_none (now_min w : Int) :
    ∀ (L1 L2 : List Lesson), findToday now_min w L1 = Except.ok none →
      findToday now_min w (L1 ++ L2) = findToday now_min w L2 := by
  intro L1
  induction L1 with
  | nil => intro L2 _; rfl
  | cons x L1 ih =>
    intro L2 h
    cases hp : parseLessonStart x.start_time with
    | error e =>
      cases e with
      | valueError =>
        simp [findToday, hp] at h ⊢
        exact ih L2 h
      | keyError =>
        simp [findToday, hp] at h ⊢
        exact ih L2 h
      | indexError =>
        simp [findToday, hp] at h
    | ok pr =>
      obtain ⟨hx, mx⟩ := pr
      simp only [List.cons_append, findToday, hp] at h ⊢
      split at h
      next hcnd => exact absurd h (by simp)
      next hcnd =>
        rw [if_neg hcnd]
        exact ih L2 h

theorem puw_fire_at_20 (env : ScanEnv) (u : User) (st : TickState) (l : Lesson)
    (h5 : db_get_upcoming_class env u.class_name 5 = Except.ok none)
    (h10 : db_get_upcoming_class env u.class_name 10 = Except.ok none)
    (h20 : db_get_upcoming_class env u.class_name 20 = Except.ok (some l))
    (hled : check_notification_already_sent st.ledger u.phone u.class_name
      l.day_name l.lesson_number env.today = false)
    (hsend : env.send st.attempts = true) :
    processUserWindows env u check_windows st =
      ({ st with
          checked := st.checked ++ [5, 10, 20],
          attempts := st.attempts + 1,
          delivered := st.delivered ++ [mkMsg u l env.today],
          ledger := db_record_notification_sent st.ledger u.phone u.class_name
            l.day_name l.lesson_number env.today }, none) := by
  obtain ⟨led, del, att, chk⟩ := st
  simp only [check_windows]
  simp at hled hsend
  simp [processUserWindows, h5, h10, h20, hled, hsend]

/-- Claim C4: with the ascending windows 5, 10, 20, 30 and a lesson
whose start is 18 minutes ahead (all other lessons of the class today
being out of the 30-minute range and tomorrow's schedule empty), the
5- and 10-minute lookups return no match, the 20-minute lookup returns
the lesson, the notification fires on the 20-minute window with the
ledger row recorded, and the 30-minute window is never checked. -/
theorem C4_window_escalation (env : ScanEnv) (u : User) (st : TickState)
    (l : Lesson) (h m : Int) (pre post : List Lesson)
    (hsched : scheduleFor env.rows u.class_name (dayName env.wd) = pre ++ l :: post)
    (hparse : parseLessonStart l.start_time = Except.ok (h, m))
    (hdiff : h * 60 + m - env.now_min = 18)
    (hothers : ∀ x ∈ pre ++ post, ∃ hx mx : Int,
      parseLessonStart x.start_time = Except.ok (hx, mx) ∧
      (hx * 60 + mx - env.now_min < 0 ∨ 30 < hx * 60 + mx - env.now_min))
    (htom : scheduleFor env.rows u.class_name (dayName ((env.wd + 1) % 7)) = [])
    (hled : check_notification_already_sent st.ledger u.phone u.class_name
      l.day_name l.lesson_number env.today = false)
    (hsend : env.send st.attempts = true) :
    db_get_upcoming_class env u.class_name 5 = Except.ok none ∧
    db_get_upcoming_class env u.class_name 10 = Except.ok none ∧
    db_get_upcoming_class env u.class_name 20 = Except.ok (some l) ∧
    processUserWindows env u check_windows st =
      ({ st with
          checked := st.checked ++ [5, 10, 20],
          attempts := st.attempts + 1,
          delivered := st.delivered ++ [mkMsg u l env.today],
          ledger := db_record_notification_sent st.ledger u.phone u.class_name
            l.day_name l.lesson_number env.today }, none) := by
  have hallmiss : ∀ w : Int, w ≤ 30 → ¬(18 : Int) ≤ w →
      findToday env.now_min w (scheduleFor env.rows u.class_name (dayName env.wd)) =
        Except.ok none := by
    intro w hw30 hw18
    rw [hsched]
    apply findToday_none_of_all_miss
    intro x hx
    rcases List.mem_append.mp hx with hxpre | hxtail
    · obtain ⟨hx', mx', hp', hc'⟩ := hothers x (List.mem_append.mpr (Or.inl hxpre))
      exact ⟨hx', mx', hp', by omega⟩
    · rcases List.mem_cons.mp hxtail with hxl | hxpost
      · subst hxl
        exact ⟨h, m, hparse, by omega⟩
      · obtain ⟨hx', mx', hp', hc'⟩ := hothers x (List.mem_append.mpr (Or.inr hxpost))
        exact ⟨hx', mx', hp', by omega⟩
  have hpre20 : findToday env.now_min 20 pre = Except.ok none := by
    apply findToday_none_of_all_miss
    intro x hxpre
    obtain ⟨hx', mx', hp', hc'⟩ := hothers x (List.mem_append.mpr (Or.inl hxpre))
    exact ⟨hx', mx', hp', by omega⟩
  have hcond20 : 0 ≤ h * 60 + m - env.now_min ∧ h * 60 + m - env.now_min ≤ 20 := by
    omega
  have h20today : findToday env.now_min 20
      (scheduleFor env.rows u.class_name (dayName env.wd)) = Except.ok (some l) := by
    rw [hsched, findToday_append_of_none env.now_min 20 pre (l :: post) hpre20]
    simp [findToday, hparse, hcond20]
  have hdb5 : db_get_upcoming_class env u.class_name 5 = Except.ok none := by
    simp [db_get_upcoming_class, hallmiss 5 (by norm_num) (by norm_num), htom, findTomorrow]
  have hdb10 : db_get_upcoming_class env u.class_name 10 = Except.ok none := by
    simp [db_get_upcoming_class, hallmiss 10 (by norm_num) (by norm_num), htom, findTomorrow]
  have hdb20 : db_get_upcoming_class env u.class_name 20 = Except.ok (some l) := by
    simp [db_get_upcoming_class, h20today]
  exact ⟨hdb5, hdb10, hdb20, puw_fire_at_20 env u st l hdb5 hdb10 hdb20 hled hsend⟩

theorem C4_witness :
    check_notification_already_sent initState.ledger userA.phone userA.class_name
      lessonAlg.day_name lessonAlg.lesson_number envC4.today = false ∧
    db_get_upcoming_class envC4 "10-А" 5 = Except.ok none ∧
    db_get_upcoming_class envC4 "10-А" 20 = Except.ok (some lessonAlg) ∧
    processUserWindows envC4 userA check_windows initState =
      ({ initState with
          checked := [5, 10, 20],
          attempts := 1,
          delivered := [mkMsg userA lessonAlg envC4.today],
          ledger := db_record_notification_sent initState.ledger userA.phone
            userA.class_name lessonAlg.day_name lessonAlg.lesson_number envC4.today },
        none) := by
  have hmain := C4_window_escalation envC4 userA initState lessonAlg 8 30 [] []
    (by rfl) (by rfl) (by decide) (by simp) (by rfl) (by rfl) (by rfl)
  exact ⟨rfl, hmain.1, hmain.2.2.1, hmain.2.2.2⟩

/-- Claim C5: at Monday 23:58, a Tuesday lesson stored at 00:03 is
found by the 5-minute lookup: the today loop over Monday's (empty)
schedule yields nothing, the tomorrow loop queries the Tuesday
schedule and computes the distance as a full day-plus-time delta
against the same `now` — 1440 + 3 - 1438 = 5 minutes — so the Tuesday
lesson is returned as a match within the 5-minute window. -/
theorem C5_day_rollover (env : ScanEnv) (cls : String) (l : Lesson) (rest : List Lesson)
    (hwd : env.wd = 0) (hnow : env.now_min = 1438)
    (htoday : scheduleFor env.rows cls (dayName 0) = [])
    (htom : scheduleFor env.rows cls (dayName 1) = l :: rest)
    (hparse : parseLessonStart l.start_time = Except.ok (0, 3)) :
    dayName ((env.wd + 1) % 7) = "Вівторок" ∧
    (1440 + (0 * 60 + 3) - env.now_min : Int) = 5 ∧
    db_get_upcoming_class env cls 5 = Except.ok (some l) := by
  refine ⟨by rw [hwd]; rfl, by rw [hnow]; norm_num, ?_⟩
  have hcond : (0 : Int) ≤ 1440 + (0 * 60 + 3) - env.now_min ∧
      1440 + (0 * 60 + 3) - env.now_min ≤ 5 := by
    rw [hnow]; norm_num
  have hft : findTomorrow env.now_min 5 (l :: rest) = Except.ok (some l) := by
    simp only [findTomorrow, hparse]
    rw [if_pos hcond]
  have h17 : ((0 + 1) % 7 : Nat) = 1 := by norm_num
  unfold db_get_upcoming_class
  rw [hwd, htoday, h17, htom]
  simp only [findToday]
  exact hft

theorem C5_witness :
    envC5.wd = 0 ∧
    db_get_upcoming_class envC5 "10-А" 5 = Except.ok (some lessonTue) :=
  ⟨rfl,
    (C5_day_rollover envC5 "10-А" lessonTue [] rfl rfl rfl rfl rfl).2.2⟩


theorem onSnapshot_tracked_no_task {α : Type} (q : α → Bool) (lr : Bool) (id : String) :
    ∀ (cs : List (Change α)) (tr : List String), id ∈ tr →
      ¬ id ∈ (onSnapshot q lr cs tr).2 := by
  intro cs
  induction cs with
  | nil =>
    intro tr _ hmem
    simp [onSnapshot] at hmem
  | cons c cs ih =>
    intro tr htr
    cases hd : c.doc with
    | none =>
      simp only [onSnapshot, hd]
      exact ih tr htr
    | some d =>
      by_cases hcond : (c.ctype = ChangeType.ADDED ∨ c.ctype = ChangeType.MODIFIED) ∧
          q d = true ∧ ¬ c.id ∈ tr
      · have hne : ¬ id = c.id := fun he => hcond.2.2 (he ▸ htr)
        have htr' : id ∈ tr ++ [c.id] := List.mem_append.mpr (Or.inl htr)
        simp only [onSnapshot, hd, if_pos hcond]
        intro hmem
        rcases List.mem_append.mp hmem with hpre | hrest
        · cases lr with
          | true => simp at hpre; exact hne hpre
          | false => simp at hpre
        · exact ih (tr ++ [c.id]) htr' hrest
      · simp only [onSnapshot, hd, if_neg hcond]
        exact ih tr htr

/-- Claim C6: for each feed listener, a document id placed in the
tracked set by the startup full-collection scan produces zero
deliveries on any later snapshot batch — including a MODIFIED or ADDED
change for that id — because the callback finds the id already tracked
and schedules no notification task. -/
theorem C6_startup_suppression :
    (∀ (docs : List (String × Option AppDoc)) (lr : Bool)
        (changes : List (Change AppDoc)) (id : String),
        id ∈ seedApps docs →
        ¬ id ∈ (onSnapshot appQualifies lr changes (seedApps docs)).2) ∧
    (∀ (docs : List (String × Option NewsDoc)) (lr : Bool)
        (changes : List (Change NewsDoc)) (id : String),
        id ∈ seedNews docs →
        ¬ id ∈ (onSnapshot newsQualifies lr changes (seedNews docs)).2) :=
  ⟨fun docs lr changes id h =>
      onSnapshot_tracked_no_task appQualifies lr id changes (seedApps docs) h,
    fun docs lr changes id h =>
      onSnapshot_tracked_no_task newsQualifies lr id changes (seedNews docs) h⟩

theorem C6_witness :
    ("x" ∈ seedApps [("x", some (AppDoc.mk "new"))]) ∧
    ¬ "x" ∈ (onSnapshot appQualifies true
        [Change.mk "x" (some (AppDoc.mk "new")) ChangeType.MODIFIED]
        (seedApps [("x", some (AppDoc.mk "new"))])).2 :=
  ⟨by decide,
    C6_startup_suppression.1 [("x", some (AppDoc.mk "new"))] true
      [Change.mk "x" (some (AppDoc.mk "new")) ChangeType.MODIFIED] "x" (by decide)⟩

/-- Claim C7 is false on the code: `delete_application_callback` runs
`tracking_applications.discard(app_id)`, removing the id from the
tracked set; a later qualifying change event for the same document id
then schedules a second delivery within the same process lifetime.
The sequence below — qualifying change, administrator delete, same
qualifying change — yields two scheduled deliveries for id "a". -/
theorem C7_counterexample :
    (appRun c7Events []).2 = ["a", "a"] ∧
    ¬ List.count "a" (appRun c7Events []).2 ≤ 1 := by
  refine ⟨rfl, by decide⟩

theorem onSnapshot_count_spec {α : Type} (q : α → Bool) (lr : Bool) (id : String) :
    ∀ (cs : List (Change α)) (tr : List String),
      List.count id (onSnapshot q lr cs tr).2 ≤ (if id ∈ tr then 0 else 1) ∧
      (id ∈ tr → id ∈ (onSnapshot q lr cs tr).1) ∧
      (1 ≤ List.count id (onSnapshot q lr cs tr).2 → id ∈ (onSnapshot q lr cs tr).1) := by
  intro cs
  induction cs with
  | nil =>
    intro tr
    refine ⟨by simp [onSnapshot], fun h => by simpa [onSnapshot] using h, ?_⟩
    intro h
    simp [onSnapshot] at h
  | cons c cs ih =>
    intro tr
    cases hd : c.doc with
    | none =>
      simpa only [onSnapshot, hd] using ih tr
    | some d =>
      by_cases hcond : (c.ctype = ChangeType.ADDED ∨ c.ctype = ChangeType.MODIFIED) ∧
          q d = true ∧ ¬ c.id ∈ tr
      · obtain ⟨ha, hb, hc⟩ := ih (tr ++ [c.id])
        simp only [onSnapshot, hd, if_pos hcond]
        by_cases hid : id = c.id
        · have hidtr' : id ∈ tr ++ [c.id] := by simp [hid]
          have hr2 : List.count id (onSnapshot q lr cs (tr ++ [c.id])).2 = 0 := by
            rw [if_pos hidtr'] at ha
            omega
          have hnotr : ¬ id ∈ tr := by rw [hid]; exact hcond.2.2
          have h1 : List.count id [c.id] = 1 := by simp [hid]
          refine ⟨?_, fun _ => hb hidtr', fun _ => hb hidtr'⟩
          rw [if_neg hnotr]
          cases lr
          · simp [List.count_append, hr2]
          · rw [hid] at hr2 ⊢
            simp [List.count_cons, hr2]
        · have hpre0 : List.count id (if lr then [c.id] else ([] : List String)) = 0 := by
            cases lr <;> simp [List.count_cons, hid]
          have hmemiff : (id ∈ tr ++ [c.id]) ↔ id ∈ tr := by
            simp [List.mem_append, hid]
          have hifeq : (if id ∈ tr ++ [c.id] then (0 : Nat) else 1) =
              (if id ∈ tr then 0 else 1) := by
            simp [hmemiff]
          refine ⟨?_, ?_, ?_⟩
          · rw [List.count_append, hpre0]
            rw [hifeq] at ha
            omega
          · intro htr
            exact hb (hmemiff.mpr htr)
          · intro hone
            rw [List.count_append, hpre0] at hone
            exact hc (by omega)
      · simp only [onSnapshot, hd, if_neg hcond]
        exact ih tr

theorem appRun_count (id : String) :
    ∀ (evs : List AppEvent) (tr : List String),
      (∀ e ∈ evs, e ≠ AppEvent.adminDelete id) →
      List.count id (appRun evs tr).2 ≤ (if id ∈ tr then 0 else 1) ∧
      (id ∈ tr → id ∈ (appRun evs tr).1) := by
  intro evs
  induction evs with
  | nil =>
    intro tr _
    exact ⟨by simp [appRun], fun h => by simpa [appRun] using h⟩
  | cons e evs ih =>
    intro tr hno
    have hnoe : e ≠ AppEvent.adminDelete id := hno e (by simp)
    have hnorest : ∀ x ∈ evs, x ≠ AppEvent.adminDelete id :=
      fun x hx => hno x (by simp [hx])
    cases e with
    | snap cs =>
      obtain ⟨ha, hb, hc⟩ := onSnapshot_count_spec appQualifies true id cs tr
      obtain ⟨ha', hb'⟩ := ih (onSnapshot appQualifies true cs tr).1 hnorest
      simp only [appRun, appStep]
      rw [List.count_append]
      refine ⟨?_, fun htr => hb' (hb htr)⟩
      by_cases hid : id ∈ tr
      · have h1 : List.count id (onSnapshot appQualifies true cs tr).2 = 0 := by
          rw [if_pos hid] at ha
          omega
        have h2 : id ∈ (onSnapshot appQualifies true cs tr).1 := hb hid
        rw [if_pos h2] at ha'
        rw [if_pos hid]
        omega
      · rw [if_neg hid] at ha ⊢
        by_cases hid1 : id ∈ (onSnapshot appQualifies true cs tr).1
        · rw [if_pos hid1] at ha'
          omega
        · have hcnt0 : List.count id (onSnapshot appQualifies true cs tr).2 = 0 := by
            by_contra hne
            exact hid1 (hc (by omega))
          rw [if_neg hid1] at ha'
          omega
    | adminDelete did =>
      have hne : id ≠ did := by
        intro he
        exact hnoe (by rw [he])
      have hmem : id ∈ tr.erase did ↔ id ∈ tr := List.mem_erase_of_ne hne
      obtain ⟨ha', hb'⟩ := ih (tr.erase did) hnorest
      simp only [appRun, appStep, List.nil_append]
      refine ⟨?_, fun htr => hb' (hmem.mpr htr)⟩
      have hifeq : (if id ∈ tr.erase did then (0 : Nat) else 1) =
          (if id ∈ tr then 0 else 1) := by
        simp [hmem]
      rw [hifeq] at ha'
      exact ha'

theorem newsRun_count (id : String) :
    ∀ (batches : List (List (Change NewsDoc))) (tr : List String),
      List.count id (newsRun batches tr).2 ≤ (if id ∈ tr then 0 else 1) ∧
      (id ∈ tr → id ∈ (newsRun batches tr).1) := by
  intro batches
  induction batches with
  | nil =>
    intro tr
    exact ⟨by simp [newsRun], fun h => by simpa [newsRun] using h⟩
  | cons cs batches ih =>
    intro tr
    obtain ⟨ha, hb, hc⟩ := onSnapshot_count_spec newsQualifies true id cs tr
    obtain ⟨ha', hb'⟩ := ih (onSnapshot newsQualifies true cs tr).1
    simp only [newsRun]
    rw [List.count_append]
    refine ⟨?_, fun htr => hb' (hb htr)⟩
    by_cases hid : id ∈ tr
    · have h1 : List.count id (onSnapshot newsQualifies true cs tr).2 = 0 := by
        rw [if_pos hid] at ha
        omega
      have h2 : id ∈ (onSnapshot newsQualifies true cs tr).1 := hb hid
      rw [if_pos h2] at ha'
      rw [if_pos hid]
      omega
    · rw [if_neg hid] at ha ⊢
      by_cases hid1 : id ∈ (onSnapshot newsQualifies true cs tr).1
      · rw [if_pos hid1] at ha'
        omega
      · have hcnt0 : List.count id (onSnapshot newsQualifies true cs tr).2 = 0 := by
          by_contra hne
          exact hid1 (hc (by omega))
        rw [if_neg hid1] at ha'
        omega

/-- Claim C7 (amended): for each feed listener, a document id, once in
the tracked set, is never scheduled for delivery again as long as no
administrator delete action for that id occurs: for the applications
listener this holds for every event sequence free of
`delete_application_callback` on that id (that handler discards the id
from the tracked set, after which a qualifying change processes it
again, as the counterexample shows); the news listener has no removal
path, so it holds for every sequence of snapshot batches. -/
theorem C7_amended_no_reprocess :
    (∀ (evs : List AppEvent) (tr : List String) (id : String),
        (∀ e ∈ evs, e ≠ AppEvent.adminDelete id) →
        List.count id (appRun evs tr).2 ≤ (if id ∈ tr then 0 else 1)) ∧
    (∀ (batches : List (List (Change NewsDoc))) (tr : List String) (id : String),
        List.count id (newsRun batches tr).2 ≤ (if id ∈ tr then 0 else 1)) :=
  ⟨fun evs tr id h => (appRun_count id evs tr h).1,
    fun batches tr id => (newsRun_count id batches tr).1⟩

theorem C7_amended_witness :
    (∀ e ∈ [AppEvent.snap [appChgA], AppEvent.snap [appChgA]],
        e ≠ AppEvent.adminDelete "a") ∧
    List.count "a" (appRun [AppEvent.snap [appChgA], AppEvent.snap [appChgA]] []).2 ≤
      (if ("a" : String) ∈ ([] : List String) then 0 else 1) :=
  ⟨by decide,
    C7_amended_no_reprocess.1 [AppEvent.snap [appChgA], AppEvent.snap [appChgA]] []
      "a" (by decide)⟩

theorem announce_loop_spec (deliver : Int → Bool) :
    ∀ (users : List Int) (s e : Nat) (d : List Int),
      announce_loop deliver users s e d =
        (s + (users.filter deliver).length,
          e + (users.filter fun u => !(deliver u)).length,
          d ++ users.filter deliver) := by
  intro users
  induction users with
  | nil =>
    intro s e d
    simp [announce_loop]
  | cons u us ih =>
    intro s e d
    cases hu : deliver u
    · have hstep : announce_loop deliver (u :: us) s e d =
          announce_loop deliver us s (e + 1) d := by
        simp [announce_loop, hu]
      rw [hstep, ih]
      simp [List.filter_cons, hu, Prod.ext_iff]
      omega
    · have hstep : announce_loop deliver (u :: us) s e d =
          announce_loop deliver us (s + 1) e (d ++ [u]) := by
        simp [announce_loop, hu]
      rw [hstep, ih]
      simp [List.filter_cons, hu, Prod.ext_iff, List.append_assoc]
      omega

theorem news_loop_spec (deliver : Int → Bool) :
    ∀ (users : List Int) (s f : Nat),
      news_loop deliver users s f =
        (s + (users.filter deliver).length,
          f + (users.filter fun u => !(deliver u)).length) := by
  intro users
  induction users with
  | nil =>
    intro s f
    simp [news_loop]
  | cons u us ih =>
    intro s f
    cases hu : deliver u
    · have hstep : news_loop deliver (u :: us) s f = news_loop deliver us s (f + 1) := by
        simp [news_loop, hu]
      rw [hstep, ih]
      simp [List.filter_cons, hu, Prod.ext_iff]
      omega
    · have hstep : news_loop deliver (u :: us) s f = news_loop deliver us (s + 1) f := by
        simp [news_loop, hu]
      rw [hstep, ih]
      simp [List.filter_cons, hu, Prod.ext_iff]
      omega

/-- Claim C8: in one fan-out pass each recipient is attempted
independently — a raising delivery is caught for that recipient alone
and the loop proceeds — so the reported aggregate equals the exact
numbers of per-recipient successes and failures and the payload
reaches exactly the non-failing recipients, in order.  In particular,
for recipients 1..5 where delivery to recipient 3 raises, the report
is 4 successes and 1 failure and recipients 4 and 5 still receive the
payload.  The news listener's fan-out counters satisfy the same
specification. -/
theorem C8_fanout_isolation :
    (∀ (deliver : Int → Bool) (users : List Int),
        send_announcement_to_all deliver users =
          ((users.filter deliver).length,
            (users.filter fun u => !(deliver u)).length,
            users.filter deliver)) ∧
    (∀ (deliver : Int → Bool) (users : List Int),
        news_send_to_all deliver users =
          ((users.filter deliver).length,
            (users.filter fun u => !(deliver u)).length)) ∧
    send_announcement_to_all (fun u => decide (u ≠ 3)) [1, 2, 3, 4, 5] =
      (4, 1, [1, 2, 4, 5]) := by
  refine ⟨?_, ?_, by decide⟩
  · intro deliver users
    simpa using announce_loop_spec deliver users 0 0 []
  · intro deliver users
    simpa using news_loop_spec deliver users 0 0

/-- Claim C9: if a listener's backend initialization fails — the
Firebase library unavailable, the credentials file absent, or client
construction raising — `start_listening` logs and returns without
subscribing and without retrying (its body is straight-line, leaving
the listener unsubscribed with an empty tracked set for the process
lifetime), while `main` still invokes the other listener's
`start_listening`, whose outcome depends only on its own
initialization, and still creates the scanner task. -/
theorem C9_listener_init_failure_isolated (e : FirebaseEnv)
    (appsDocs : List (String × Option AppDoc))
    (newsDocs : List (String × Option NewsDoc))
    (hfail : init_firebase_apps e = false) :
    start_listening_apps e appsDocs = ([], false) ∧
    (mainStartup e appsDocs newsDocs).appsSubscribed = false ∧
    (mainStartup e appsDocs newsDocs).scannerStarted = true ∧
    (e.firebase_available = true →
      (mainStartup e appsDocs newsDocs).newsStartInvoked = true ∧
      (mainStartup e appsDocs newsDocs).newsSubscribed =
        (init_firebase_news e && e.news_stream_ok)) := by
  have h1 : start_listening_apps e appsDocs = ([], false) := by
    simp [start_listening_apps, hfail]
  refine ⟨h1, ?_, ?_, ?_⟩
  · cases hav : e.firebase_available
    · simp [mainStartup, hav]
    · simp [mainStartup, hav, h1]
  · cases hav : e.firebase_available <;> simp [mainStartup, hav]
  · intro hav
    refine ⟨by simp [mainStartup, hav], ?_⟩
    cases hinit : init_firebase_news e <;> cases hstr : e.news_stream_ok <;>
      simp [mainStartup, hav, start_listening_news, hinit, hstr]

theorem C9_witness :
    init_firebase_apps (FirebaseEnv.mk true true false true true true) = false ∧
    start_listening_apps (FirebaseEnv.mk true true false true true true) [] =
      ([], false) ∧
    (mainStartup (FirebaseEnv.mk true true false true true true) [] []).scannerStarted =
      true :=
  ⟨by decide,
    (C9_listener_init_failure_isolated (FirebaseEnv.mk true true false true true true)
      [] [] (by decide)).1,
    (C9_listener_init_failure_isolated (FirebaseEnv.mk true true false true true true)
      [] [] (by decide)).2.2.1⟩

theorem puw_fail_then (env : ScanEnv) (u : User) (st : TickState) (l : Lesson)
    (h5 : db_get_upcoming_class env u.class_name 5 = Except.ok none)
    (h10 : db_get_upcoming_class env u.class_name 10 = Except.ok none)
    (h20 : db_get_upcoming_class env u.class_name 20 = Except.ok (some l))
    (h30 : db_get_upcoming_class env u.class_name 30 = Except.ok (some l))
    (hled : check_notification_already_sent st.ledger u.phone u.class_name
      l.day_name l.lesson_number env.today = false)
    (hf0 : env.send st.attempts = false) :
    (env.send (st.attempts + 1) = true →
      processUserWindows env u check_windows st =
        ({ st with
            checked := st.checked ++ [5, 10, 20, 30],
            attempts := st.attempts + 2,
            delivered := st.delivered ++ [mkMsg u l env.today],
            ledger := db_record_notification_sent st.ledger u.phone u.class_name
              l.day_name l.lesson_number env.today }, none)) ∧
    (env.send (st.attempts + 1) = false →
      processUserWindows env u check_windows st =
        ({ st with
            checked := st.checked ++ [5, 10, 20, 30],
            attempts := st.attempts + 2 }, none)) := by
  obtain ⟨led, del, att, chk⟩ := st
  simp only at hled hf0
  constructor <;> intro hs <;> simp only at hs <;>
    simp [processUserWindows, check_windows, h5, h10, h20, h30, hled, hf0, hs]

/-- Claim C10: when a send raises, the inner `except` of the window
loop logs and continues: no `notifications_sent` row is recorded for
the dedup key (the ledger is unchanged on error) and the loop proceeds
to the remaining larger windows of the same tick, where the same
lesson is found again, its key is checked again, and a send is
attempted again; once a send succeeds the key is recorded and the loop
breaks, and if every attempt of a tick fails the unchanged ledger lets
the next tick check the key and attempt the send again. -/
theorem C10_failed_send_retries (env : ScanEnv) (u : User) (st : TickState) (l : Lesson)
    (h5 : db_get_upcoming_class env u.class_name 5 = Except.ok none)
    (h10 : db_get_upcoming_class env u.class_name 10 = Except.ok none)
    (h20 : db_get_upcoming_class env u.class_name 20 = Except.ok (some l))
    (h30 : db_get_upcoming_class env u.class_name 30 = Except.ok (some l))
    (hled : check_notification_already_sent st.ledger u.phone u.class_name
      l.day_name l.lesson_number env.today = false)
    (hf0 : env.send st.attempts = false)
    (husers : env.users = [u])
    (hnotif : u.events_notifications = true) :
    (env.send (st.attempts + 1) = true →
      processUserWindows env u check_windows st =
        ({ st with
            checked := st.checked ++ [5, 10, 20, 30],
            attempts := st.attempts + 2,
            delivered := st.delivered ++ [mkMsg u l env.today],
            ledger := db_record_notification_sent st.ledger u.phone u.class_name
              l.day_name l.lesson_number env.today }, none)) ∧
    (env.send (st.attempts + 1) = false →
      tick env st =
        { st with checked := st.checked ++ [5, 10, 20, 30], attempts := st.attempts + 2 } ∧
      ({ st with
          checked := st.checked ++ [5, 10, 20, 30],
          attempts := st.attempts + 2 } : TickState).ledger = st.ledger ∧
      (env.send (st.attempts + 2) = true →
        tick env
          { st with
            checked := st.checked ++ [5, 10, 20, 30],
            attempts := st.attempts + 2 } =
          { st with
              checked := st.checked ++ [5, 10, 20, 30, 5, 10, 20],
              attempts := st.attempts + 3,
              delivered := st.delivered ++ [mkMsg u l env.today],
              ledger := db_record_notification_sent st.ledger u.phone u.class_name
                l.day_name l.lesson_number env.today })) := by
  obtain ⟨hsucc, hfail⟩ := puw_fail_then env u st l h5 h10 h20 h30 hled hf0
  refine ⟨hsucc, ?_⟩
  intro hs1
  have hstep := hfail hs1
  refine ⟨?_, rfl, ?_⟩
  · simp [tick, husers, tickUsers, hnotif, hstep]
  · intro hs2
    have hfire := puw_fire_at_20 env u
      ({ st with checked := st.checked ++ [5, 10, 20, 30], attempts := st.attempts + 2 })
      l h5 h10 h20 hled hs2
    simp [tick, husers, tickUsers, hnotif, hfire, List.append_assoc]

theorem C10_witness :
    envC10.send initState.attempts = false ∧
    processUserWindows envC10 userA check_windows initState =
      ({ initState with
          checked := [5, 10, 20, 30],
          attempts := 2,
          delivered := [mkMsg userA lessonAlg envC10.today],
          ledger := db_record_notification_sent initState.ledger userA.phone
            userA.class_name lessonAlg.day_name lessonAlg.lesson_number envC10.today },
        none) :=
  ⟨rfl,
    (C10_failed_send_retries envC10 userA initState lessonAlg rfl rfl rfl rfl rfl rfl
      rfl rfl).1 rfl⟩
